import Mathlib

/-!
Verification of `hfxget.py` (the Q-HF-Xget download accelerator) against its
natural-language specification.

Shallow embedding conventions:
- Machine/file-system effects are made explicit: every embedded operation
  returns, besides its result, the updated file-system state and a list of
  events describing the externally visible actions it performed
  (fetch invocations, artifact removals, source switches, byte writes,
  renames, backoff sleeps).
- External collaborators (the HTTP transport, the huggingface metadata
  helpers `sha_fileobj` / `git_hash` / `read_download_metadata`, and the
  evolving global `interrupted` flag) are modelled as oracles: explicit
  function parameters recording what each call would have returned.
- Fingerprints (etags, commit hashes) are opaque strings; file contents are
  lists of naturals standing for byte strings.
-/

namespace Hfxget

/-! ## Transport-level data model (src/hfxget.py lines 108-112)

`DownloadResult` mirrors the `DownloadResult` dataclass: `success`,
optional `status_code`, optional `message`. -/

structure DownloadResult where
  success : Bool
  statusCode : Option Nat := none
  message : Option String := none
  deriving DecidableEq

/-- Membership test `status_code in {401, 403, 404}` / `[401, 403, 404]`
used at lines 219, 583-584, 783 and 815 of src/hfxget.py. -/
def permStatus (c : Nat) : Bool :=
  c == 401 || c == 403 || c == 404

/-! ## RequestsDownloader.download_file (src/hfxget.py lines 140-229)

The local state visible to one `download_file` call is the pair of the
final path `local_path` and the sidecar path
`local_path.with_suffix(suffix + ".incomplete")`; each holds either no
file (`none`) or a byte string. -/

inductive TargetPath
  | finalPath
  | sidecarPath
  deriving DecidableEq

inductive DLEvent
  | writeBytes (t : TargetPath) (chunk : List Nat)
  | unlinkStaleFinal
  | renameToFinal
  | unlinkTempOnPermFail
  deriving DecidableEq

structure DLState where
  finalContent : Option (List Nat)
  sidecarContent : Option (List Nat)
  deriving DecidableEq

def getC (st : DLState) (t : TargetPath) : Option (List Nat) :=
  match t with
  | TargetPath.finalPath => st.finalContent
  | TargetPath.sidecarPath => st.sidecarContent

def setC (st : DLState) (t : TargetPath) (c : Option (List Nat)) : DLState :=
  match t with
  | TargetPath.finalPath => { st with finalContent := c }
  | TargetPath.sidecarPath => { st with sidecarContent := c }

/-- Oracle for what `session.get` produced for this call:
`rangeNotSatisfiable` is a 416 reply (line 179); `errStatus code` is any
response on which `raise_for_status()` raises an `HTTPError` carrying that
response (line 187); `stream chunks connFail` is a 200/206 reply whose
`iter_content` yields `chunks` and, when `connFail` is set, then raises a
transport exception carrying no response (timeout / reset mid-stream). -/
inductive HttpResponse
  | rangeNotSatisfiable
  | errStatus (code : Nat)
  | stream (chunks : List (List Nat)) (connFail : Bool)

/-- Oracle for the global `interrupted` flag inside the chunk loop
(line 202): the flag is observed set just before writing chunk `i` for
every `i ≥ intrFrom` (it is monotone once set). -/
structure DLEnv where
  response : HttpResponse
  intrFrom : Option Nat

def intrHit (intrFrom : Option Nat) (i : Nat) : Bool :=
  match intrFrom with
  | some j => decide (j ≤ i)
  | none => false

/-- Chunk loop of lines 201-207: before each chunk the `interrupted` flag
is checked (returning with the target left as-is); otherwise the chunk is
appended to the open target file.  Returns whether the loop ran to
completion, the resulting state and the write events. -/
def writeLoop (intrFrom : Option Nat) (t : TargetPath) :
    List (List Nat) → Nat → DLState → Bool × DLState × List DLEvent
  | [], _, st => (true, st, [])
  | ch :: rest, i, st =>
    if intrHit intrFrom i then (false, st, [])
    else
      let st' := setC st t (some ((getC st t).getD [] ++ ch))
      let r := writeLoop intrFrom t rest (i + 1) st'
      (r.1, r.2.1, DLEvent.writeBytes t ch :: r.2.2)

/-- The tail of the stream branch of download_file (lines 201-213 and the
surrounding exception handler): given the chunk-loop outcome `w`, an
interrupted loop returns failure with the target left as-is; a transport
exception after the loop returns failure with `statusCode` unset; a
completed loop promotes the sidecar (unlink stale final, rename) when
`temp_path != local_path` (i.e. `resume`), else the bytes already sit at
the final path. -/
def streamFinish (resume : Bool) (connFail : Bool)
    (w : Bool × DLState × List DLEvent) : DownloadResult × DLState × List DLEvent :=
  if w.1 = false then
    ({ success := false, statusCode := none, message := some "interrupted" }, w.2.1, w.2.2)
  else if connFail then
    ({ success := false, statusCode := none, message := some "ConnectionError" },
     w.2.1, w.2.2)
  else if resume then
    ({ success := true },
     { finalContent := getC w.2.1 TargetPath.sidecarPath, sidecarContent := none },
     w.2.2 ++ [DLEvent.unlinkStaleFinal, DLEvent.renameToFinal])
  else ({ success := true }, w.2.1, w.2.2)

/-- RequestsDownloader.download_file, lines 140-229.

- lines 145-150: `temp_path` is the final path when `resume` is false, the
  `.incomplete` sidecar when `resume` is true;
- lines 161-167: a resumed call (sidecar already has bytes) opens in
  append mode, otherwise `open(temp_path, "wb")` truncates the target;
- lines 179-185: on a 416 reply with an existing sidecar (and
  `temp_path != local_path`, i.e. `resume`), the stale final file is
  unlinked and the sidecar renamed to final, successfully, re-fetching
  nothing;
- lines 201-207: streamed chunks are written to `temp_path`, aborting with
  `message="interrupted"` when the global flag is seen;
- lines 209-213: after a complete stream, when `temp_path != local_path`
  the stale final file is unlinked and the sidecar renamed to final;
- lines 215-229: an `HTTPError` whose status is 401/403/404 unlinks
  `temp_path` and records the status; every other exception returns
  failure with `statusCode` unset and the file system untouched. -/
def download_file (env : DLEnv) (resume : Bool) (st0 : DLState) :
    DownloadResult × DLState × List DLEvent :=
  let tempT : TargetPath := if resume then TargetPath.sidecarPath else TargetPath.finalPath
  let resumed : Bool := resume && st0.sidecarContent.isSome
  match env.response with
  | HttpResponse.rangeNotSatisfiable =>
    if resume && st0.sidecarContent.isSome then
      ({ success := true },
       { finalContent := st0.sidecarContent, sidecarContent := none },
       [DLEvent.unlinkStaleFinal, DLEvent.renameToFinal])
    else ({ success := true }, st0, [])
  | HttpResponse.errStatus code =>
    if permStatus code then
      ({ success := false, statusCode := some code, message := some "HTTPError" },
       setC st0 tempT none, [DLEvent.unlinkTempOnPermFail])
    else ({ success := false, statusCode := none, message := some "HTTPError" }, st0, [])
  | HttpResponse.stream chunks connFail =>
    let stInit := if resumed then st0 else setC st0 tempT (some [])
    streamFinish resume connFail (writeLoop env.intrFrom tempT chunks 0 stInit)

/-! ## Manifest entries and integrity verification
(src/hfxget.py lines 591-728) -/

/-- The `lfs` sub-record of a sibling: optional `sha256` and optional
`oid` (possibly of the form `sha256:<hex>`). -/
structure LfsInfo where
  sha256 : Option String
  oid : Option String
  deriving DecidableEq

/-- One entry of `files_info` built at lines 567-575: `filename`, optional
`size`, optional `lfs` record, optional `blob_id`. -/
structure FileInfo where
  filename : List Char
  size : Option Nat
  lfs : Option LfsInfo
  blobId : Option String
  deriving DecidableEq

/-- is_lfs_file, line 591-593: the entry's `lfs` field is not `None`. -/
def is_lfs_file (fi : FileInfo) : Bool :=
  fi.lfs.isSome

/-- Python truthiness of an optional string: `None` and `""` are falsy. -/
def truthyS : Option String → Bool
  | none => false
  | some s => !(s == "")

/-- Lines 645-650: the oid fallback of `_extract_expected_etag`; an oid of
the form `sha256:<hex>` is stripped to `<hex>`. -/
def oidEtag (oid : Option String) : Option String :=
  match oid with
  | some o => if o.startsWith "sha256:" then some (o.drop 7) else some o
  | none => none

/-- _extract_expected_etag, lines 634-652. -/
def extract_expected_etag (fi : FileInfo) : Option String :=
  match fi.lfs with
  | some l => if truthyS l.sha256 then l.sha256 else oidEtag l.oid
  | none => fi.blobId

/-- The record persisted by `write_download_metadata` and returned by
`read_download_metadata`: a commit hash and an etag. -/
structure MetaRecord where
  commitHash : Option String
  etag : String
  deriving DecidableEq

/-- Oracles for the external hash helpers and the resolved revision:
`shaHash` stands for `sha_fileobj(f).hex()` (full-content SHA-256) and
`gitBlobHash` for `git_hash(f.read())` (full-content git blob hash). -/
structure VerifyCtx where
  shaHash : List Nat → String
  gitBlobHash : List Nat → String
  resolvedCommitHash : Option String

inductive VAction
  | hashFullContent
  | metaWrite
  | metaRead
  deriving DecidableEq

/-- _write_local_metadata, lines 712-728: the etag is recomputed from the
file's full content - `sha_fileobj` when the entry is an LFS file,
`git_hash` otherwise - and written together with the resolved commit hash;
a failing write (the caught exception of lines 723-728) leaves the store
unchanged. -/
def write_local_metadata (ctx : VerifyCtx) (writeOk : Bool) (content : List Nat)
    (fi : FileInfo) (store : Option MetaRecord) : Option MetaRecord × List VAction :=
  let etag := if is_lfs_file fi then ctx.shaHash content else ctx.gitBlobHash content
  (if writeOk then some { commitHash := ctx.resolvedCommitHash, etag := etag } else store,
   [VAction.hashFullContent, VAction.metaWrite])

/-- The state of the local artifact under verification: whether the file
exists, its on-disk size, and its content. -/
structure LocalFile where
  present : Bool
  size : Nat
  content : List Nat

/-- Oracles for the fallible metadata I/O inside one verification:
whether each of the (up to) two `write_download_metadata` calls and the
(up to) two `read_download_metadata` calls succeeds; a failing read is the
caught exception of lines 677-687 and yields `None`. -/
structure VerifyIO where
  writeOk1 : Bool
  writeOk2 : Bool
  readOk1 : Bool
  readOk2 : Bool

/-- Line 662-669: the size guard fires exactly when the entry carries a
known expected size that differs from the on-disk size. -/
def sizeMismatch (fi : FileInfo) (actual : Nat) : Bool :=
  match fi.size with
  | some n => actual != n
  | none => false

/-- verify_file_integrity, lines 654-710, returning the verdict, the
resulting metadata store and the trace of hash/metadata actions:

1. lines 659-660: a missing local file fails immediately;
2. lines 662-669: a known mismatching size fails, before any metadata or
   hash work;
3. lines 674-675: with `force_regenerate_etag` the metadata is rewritten;
4. lines 677-687: the record is read; if absent it is written and re-read;
5. lines 689-691: still no record fails;
6. lines 693-698: a truthy expected etag different from the stored one
   fails;
7. lines 700-708: truthy resolved and stored commit hashes that differ
   fail; otherwise the verification succeeds. -/
def verify_file_integrity (ctx : VerifyCtx) (io : VerifyIO) (lf : LocalFile)
    (fi : FileInfo) (force : Bool) (store0 : Option MetaRecord) :
    Bool × Option MetaRecord × List VAction :=
  if lf.present = false then (false, store0, [])
  else if sizeMismatch fi lf.size then (false, store0, [])
  else
    let w1 := if force then write_local_metadata ctx io.writeOk1 lf.content fi store0
              else (store0, [])
    let m1 := if io.readOk1 then w1.1 else none
    let evs1 := w1.2 ++ [VAction.metaRead]
    let step2 :=
      match m1 with
      | none =>
        let w2 := write_local_metadata ctx io.writeOk2 lf.content fi w1.1
        ((if io.readOk2 then w2.1 else none), w2.1, w2.2 ++ [VAction.metaRead])
      | some m => (some m, w1.1, [])
    let verdict :=
      match step2.1 with
      | none => false
      | some md =>
        let etagFail :=
          match extract_expected_etag fi with
          | some e => decide (e ≠ "") && decide (md.etag ≠ e)
          | none => false
        let commitFail := truthyS ctx.resolvedCommitHash && truthyS md.commitHash &&
          !(md.commitHash == ctx.resolvedCommitHash)
        !etagFail && !commitFail
    (verdict, step2.2.1, evs1 ++ step2.2.2)

/-! ## Per-file controller: download_and_verify_file
(src/hfxget.py lines 730-850)

The while-loop state consists of the attempt counter, the current source
(`url_type`, "LFS" = accelerated primary, "HF" = mirror fallback), and the
`download_success` / `performed_download` flags.  Iterations enter with
attempt values 0, 1, 2, ...; the oracles are indexed by that entering
value (for the `interrupted` flag and the verification call) or by the
1-based attempt number (for the fetch of that attempt). -/

inductive Source
  | lfs
  | hf
  deriving DecidableEq

/-- Outcome of `self.downloader.download_file(url, local_path)` at line
776: either a `DownloadResult`, or a raised exception (caught at lines
799-802). -/
inductive LfsOutcome
  | res (r : DownloadResult)
  | exc

/-- Outcome of `self.hf_api.hf_hub_download(...)` at lines 805-807: normal
return, an exception carrying a response status, or an exception without
one. -/
inductive HfOutcome
  | ok
  | excStatus (c : Nat)
  | excOther

structure Env where
  interrupted : Nat → Bool
  verify : Nat → Bool → Bool
  lfsFetch : Nat → LfsOutcome
  hfFetch : Nat → HfOutcome

inductive Event
  | fetch (src : Source) (attemptNo : Nat)
  | removeArtifact
  | switchSource
  | sleepBackoff
  deriving DecidableEq

structure LoopState where
  attempt : Nat
  urlType : Source
  downloadSuccess : Bool
  performedDownload : Bool

/-- The per-task result dict `{"success": _, "downloaded": _,
"url_type": _}` returned by download_and_verify_file. -/
structure TaskResult where
  success : Bool
  downloaded : Bool
  urlType : Source
  deriving DecidableEq

structure StepOut where
  early : Option TaskResult
  urlType : Source
  downloadSuccess : Bool
  events : List Event

/-- One fetch dispatch, lines 774-828, for attempt number `a` from source
`src` with the incoming `download_success` flag `ds`:

- LFS branch (lines 774-802): a successful result sets
  `download_success`; a failure whose `status_code` is 401/403/404 unlinks
  `local_path` and the `.aria2` control file (`removeArtifact`) and then
  switches `url_type` to "HF" (`switchSource`); any other failure or
  exception changes nothing;
- HF branch (lines 803-825): success sets `download_success`; an
  exception carrying a 401/403/404 response returns the task result
  `{"success": False, "downloaded": True, "url_type": "HF"}` immediately;
  any other exception changes nothing. -/
def fetchStep (env : Env) (a : Nat) (src : Source) (ds : Bool) : StepOut :=
  match src with
  | Source.lfs =>
    match env.lfsFetch a with
    | LfsOutcome.res r =>
      if r.success then
        { early := none, urlType := Source.lfs, downloadSuccess := true,
          events := [Event.fetch Source.lfs a] }
      else
        match r.statusCode with
        | some c =>
          if permStatus c then
            { early := none, urlType := Source.hf, downloadSuccess := ds,
              events := [Event.fetch Source.lfs a, Event.removeArtifact,
                         Event.switchSource] }
          else
            { early := none, urlType := Source.lfs, downloadSuccess := ds,
              events := [Event.fetch Source.lfs a] }
        | none =>
          { early := none, urlType := Source.lfs, downloadSuccess := ds,
            events := [Event.fetch Source.lfs a] }
    | LfsOutcome.exc =>
      { early := none, urlType := Source.lfs, downloadSuccess := ds,
        events := [Event.fetch Source.lfs a] }
  | Source.hf =>
    match env.hfFetch a with
    | HfOutcome.ok =>
      { early := none, urlType := Source.hf, downloadSuccess := true,
        events := [Event.fetch Source.hf a] }
    | HfOutcome.excStatus c =>
      if permStatus c then
        { early := some { success := false, downloaded := true, urlType := Source.hf },
          urlType := Source.hf, downloadSuccess := ds,
          events := [Event.fetch Source.hf a] }
      else
        { early := none, urlType := Source.hf, downloadSuccess := ds,
          events := [Event.fetch Source.hf a] }
    | HfOutcome.excOther =>
      { early := none, urlType := Source.hf, downloadSuccess := ds,
        events := [Event.fetch Source.hf a] }

/-- The `while True` loop of lines 746-850, with an explicit fuel.  Each
iteration that does not return increments `attempt` by exactly one, so the
fuel `maxAttempts - attempt` always suffices and the fuel-exhaustion
branch is unreachable (it duplicates the budget-exhausted return).

- lines 747-749: an observed interrupt returns
  `{"success": False, "downloaded": False, "url_type": url_type}`;
- lines 751-762: a passing verification returns success with
  `downloaded = performed_download`;
- lines 764-767: `attempt >= max_attempts` gives up with
  `downloaded = False`;
- lines 769-772: otherwise the attempt counter is incremented before the
  fetch and `final_source` captures the pre-fetch `url_type`;
- lines 830-843: after a fetch with `download_success` still false, the
  loop sleeps and retries while `attempt < max_attempts`, else returns
  failure with `downloaded = performed_download` (true after any fetch)
  and `url_type = final_source`;
- lines 845-850: with `download_success` set, the loop returns to the
  verification step without sleeping. -/
def runLoopF (env : Env) (maxAttempts : Nat) :
    Nat → LoopState → TaskResult × List Event
  | fuel, st =>
    if env.interrupted st.attempt then
      ({ success := false, downloaded := false, urlType := st.urlType }, [])
    else if env.verify st.attempt st.performedDownload then
      ({ success := true, downloaded := st.performedDownload, urlType := st.urlType }, [])
    else if maxAttempts ≤ st.attempt then
      ({ success := false, downloaded := false, urlType := st.urlType }, [])
    else
      match fuel with
      | 0 => ({ success := false, downloaded := false, urlType := st.urlType }, [])
      | fuel' + 1 =>
        let a := st.attempt + 1
        let so := fetchStep env a st.urlType st.downloadSuccess
        match so.early with
        | some r => (r, so.events)
        | none =>
          if so.downloadSuccess = false then
            if a < maxAttempts then
              let p := runLoopF env maxAttempts fuel'
                { attempt := a, urlType := so.urlType,
                  downloadSuccess := so.downloadSuccess, performedDownload := true }
              (p.1, so.events ++ Event.sleepBackoff :: p.2)
            else
              ({ success := false, downloaded := true, urlType := st.urlType }, so.events)
          else
            let p := runLoopF env maxAttempts fuel'
              { attempt := a, urlType := so.urlType,
                downloadSuccess := so.downloadSuccess, performedDownload := true }
            (p.1, so.events ++ p.2)

def runLoop (env : Env) (maxAttempts : Nat) (st : LoopState) : TaskResult × List Event :=
  runLoopF env maxAttempts (maxAttempts - st.attempt) st

/-- download_and_verify_file, entered with `attempt = 0`, both flags
false, and `url_type` the source chosen for the file ("LFS" for LFS
files, "HF" otherwise, lines 918-921). -/
def download_and_verify_file (env : Env) (maxAttempts : Nat) (src : Source) :
    TaskResult × List Event :=
  runLoop env maxAttempts
    { attempt := 0, urlType := src, downloadSuccess := false, performedDownload := false }

def isFetchEv : Event → Bool
  | Event.fetch _ _ => true
  | _ => false

def isSwitchEv : Event → Bool
  | Event.switchSource => true
  | _ => false

def countFetch (evs : List Event) : Nat :=
  evs.countP isFetchEv

def countSwitch (evs : List Event) : Nat :=
  evs.countP isSwitchEv

/-- Every `switchSource` event is immediately preceded by a
`removeArtifact` event (the partial artifact is removed before the source
switch). -/
def remThenSwitch : List Event → Bool
  | [] => true
  | Event.removeArtifact :: Event.switchSource :: rest => remThenSwitch rest
  | Event.switchSource :: _ => false
  | _ :: rest => remThenSwitch rest

/-- A fetch outcome of the accelerated source that the controller treats
as transient: a returned failure whose status is not 401/403/404, or a
raised exception. -/
def lfsTransient : LfsOutcome → Bool
  | LfsOutcome.res r =>
    !r.success &&
      (match r.statusCode with
       | some c => !permStatus c
       | none => true)
  | LfsOutcome.exc => true

/-- A fetch outcome of the mirror source that the controller treats as
transient: a raised exception not carrying a 401/403/404 response. -/
def hfTransient : HfOutcome → Bool
  | HfOutcome.ok => false
  | HfOutcome.excStatus c => !permStatus c
  | HfOutcome.excOther => true

/-! ## Orchestrator: download_repo (src/hfxget.py lines 852-1040) -/

/-- startsWithL pat s: `s` begins with `pat` (character-wise). -/
def startsWithL : List Char → List Char → Bool
  | [], _ => true
  | _ :: _, [] => false
  | a :: pr, b :: sr => a == b && startsWithL pr sr

/-- hasSub pat s: the Python substring test `pat in s`. -/
def hasSub (pat : List Char) : List Char → Bool
  | [] => startsWithL pat []
  | c :: t => startsWithL pat (c :: t) || hasSub pat t

/-- Lines 882-894: a truthy (non-empty) include list keeps entries whose
filename contains at least one include substring; afterwards a truthy
exclude list drops entries containing any exclude substring. -/
def applyFilters (files : List FileInfo) (inc exc : List (List Char)) : List FileInfo :=
  let f1 := if inc.isEmpty then files
            else files.filter fun f => inc.any fun pat => hasSub pat f.filename
  if exc.isEmpty then f1
  else f1.filter fun f => !(exc.any fun pat => hasSub pat f.filename)

inductive RepoOutcome
  | invalidRepo
  | emptyList
  | noTasks
  | runTasks (tasks : List FileInfo)
  deriving DecidableEq

/-- The pre-worker-pool phase of download_repo, lines 863-931: a failing
`repo_info` validation returns False (lines 865-869); an empty (or
unobtainable, returned as `[]`) file list returns False (lines 877-879);
then the filters are applied and one queued task is built per surviving
entry (lines 911-925), and an empty task list returns True before the
worker pool is created (lines 929-931). -/
def download_repo_plan (repoOk : Bool) (files : List FileInfo)
    (inc exc : List (List Char)) : RepoOutcome :=
  if repoOk = false then RepoOutcome.invalidRepo
  else if files.isEmpty then RepoOutcome.emptyList
  else
    let kept := applyFilters files inc exc
    if kept.isEmpty then RepoOutcome.noTasks
    else RepoOutcome.runTasks kept

/-- The overall boolean download_repo returns on each early exit
(`none` when the plan proceeds to run tasks). -/
def planEarlyResult : RepoOutcome → Option Bool
  | RepoOutcome.invalidRepo => some false
  | RepoOutcome.emptyList => some false
  | RepoOutcome.noTasks => some true
  | RepoOutcome.runTasks _ => none

def planTasks : RepoOutcome → List FileInfo
  | RepoOutcome.runTasks ts => ts
  | _ => []

/-- One completed future as the aggregation loop of lines 964-1010 sees
it: whether the global `interrupted` flag is set when the future is
processed, whether the task itself returned through the interrupted branch
of line 747-749, and the task's result dict. -/
structure CompletedEntry where
  flagSet : Bool
  wasCancelled : Bool
  result : TaskResult

/-- The `failed_downloads` tally of lines 964-1010: the loop over
completed futures first checks the `interrupted` flag and breaks, and
otherwise counts a result with `success` false as one failure. -/
def tallyFailed : List CompletedEntry → Nat
  | [] => 0
  | e :: rest =>
    if e.flagSet then 0
    else (if e.result.success then 0 else 1) + tallyFailed rest

/-- Line 1040: download_repo returns `failed_downloads == 0`. -/
def downloadRepoSuccessFlag (entries : List CompletedEntry) : Bool :=
  tallyFailed entries == 0

/-- Lines 1129-1135 of main: an interrupted run exits with code 130, a
clean run with 0, a failed run with 1. -/
def mainExitCode (intr : Bool) (success : Bool) : Nat :=
  if intr then 130 else if success then 0 else 1

/-! ## Concrete oracle instances used by witnesses and counterexamples -/

/-- An environment whose accelerated fetches always 404 and whose mirror
fetches always raise with a 403 response. -/
def envSwitch : Env :=
  { interrupted := fun _ => false
    verify := fun _ _ => false
    lfsFetch := fun _ => LfsOutcome.res { success := false, statusCode := some 404 }
    hfFetch := fun _ => HfOutcome.excStatus 403 }

/-- An environment in which every fetch fails transiently (exceptions
without any response status). -/
def envTrans : Env :=
  { interrupted := fun _ => false
    verify := fun _ _ => false
    lfsFetch := fun _ => LfsOutcome.exc
    hfFetch := fun _ => HfOutcome.excOther }

/-- An environment whose `interrupted` flag is set from the start. -/
def envCancel : Env :=
  { interrupted := fun _ => true
    verify := fun _ _ => false
    lfsFetch := fun _ => LfsOutcome.exc
    hfFetch := fun _ => HfOutcome.excOther }

/-- An environment that is never interrupted and never verifies. -/
def envNoVerify : Env :=
  { interrupted := fun _ => false
    verify := fun _ _ => false
    lfsFetch := fun _ => LfsOutcome.exc
    hfFetch := fun _ => HfOutcome.excOther }

/-- An environment whose first verification succeeds. -/
def envVerified : Env :=
  { interrupted := fun _ => false
    verify := fun _ _ => true
    lfsFetch := fun _ => LfsOutcome.exc
    hfFetch := fun _ => HfOutcome.excOther }

/-- A transport oracle that streams two chunks and is interrupted before
the second. -/
def envDirectWrite : DLEnv :=
  { response := HttpResponse.stream [[1], [2]] false, intrFrom := some 1 }

/-- Hash oracles whose SHA-256 stand-in depends on the content length, so
that re-hashing is observable. -/
def hashCtx : VerifyCtx :=
  { shaHash := fun c => "sha" ++ toString c.length
    gitBlobHash := fun c => "git" ++ toString c.length
    resolvedCommitHash := some "rev" }

/-- An LFS manifest entry declaring the fingerprint "manifestsha". -/
def lfsManifestFile : FileInfo :=
  { filename := ['m'], size := none,
    lfs := some { sha256 := some "manifestsha", oid := none }, blobId := none }

/-- A non-LFS manifest entry declaring an expected size of 7 bytes. -/
def sizedFile : FileInfo :=
  { filename := ['s'], size := some 7, lfs := none, blobId := some "blob" }

/-- A completion sequence seen by the aggregation loop: one ordinary
failed task processed before the interrupt, then a cancelled task
(processed with the flag set, as the flag is set before any cancelled
task returns). -/
def cList : List CompletedEntry :=
  [{ flagSet := false, wasCancelled := false,
     result := { success := false, downloaded := true, urlType := Source.hf } },
   { flagSet := true, wasCancelled := true,
     result := { success := false, downloaded := false, urlType := Source.lfs } }]

/-! ## Helper lemmas about the backend chunk loop -/

theorem writeLoop_final_inv (intr : Option Nat) (chunks : List (List Nat)) :
    ∀ i st, (writeLoop intr TargetPath.sidecarPath chunks i st).2.1.finalContent =
      st.finalContent := by
  induction chunks with
  | nil => intro i st; rfl
  | cons ch rest ih =>
    intro i st
    by_cases h : intrHit intr i
    · simp [writeLoop, h]
    · simp [writeLoop, h, ih, setC]

theorem writeLoop_events_write (intr : Option Nat) (t : TargetPath)
    (chunks : List (List Nat)) :
    ∀ i st e, e ∈ (writeLoop intr t chunks i st).2.2 →
      ∃ ch, e = DLEvent.writeBytes t ch := by
  induction chunks with
  | nil => intro i st e h; simp [writeLoop] at h
  | cons ch rest ih =>
    intro i st e h
    by_cases hi : intrHit intr i
    · simp [writeLoop, hi] at h
    · simp only [writeLoop, hi, Bool.false_eq_true, if_false, List.mem_cons] at h
      rcases h with h | h
      · exact ⟨ch, h⟩
      · exact ih _ _ _ h

theorem writeLoop_sidecar_some (intr : Option Nat) (chunks : List (List Nat)) :
    ∀ i st, st.sidecarContent.isSome = true →
      (writeLoop intr TargetPath.sidecarPath chunks i st).2.1.sidecarContent.isSome =
        true := by
  induction chunks with
  | nil => intro i st h; exact h
  | cons ch rest ih =>
    intro i st h
    by_cases hi : intrHit intr i
    · simp [writeLoop, hi, h]
    · simp only [writeLoop, hi, Bool.false_eq_true, if_false]
      exact ih _ _ (by simp [setC, getC])

theorem writeLoop_completes (chunks : List (List Nat)) (t : TargetPath) :
    ∀ i st, (writeLoop none t chunks i st).1 = true := by
  induction chunks with
  | nil => intro i st; rfl
  | cons ch rest ih => intro i st; simp [writeLoop, intrHit, ih]

theorem streamFinish_trace (resume connFail : Bool) (w : Bool × DLState × List DLEvent) :
    ∀ e ∈ (streamFinish resume connFail w).2.2,
      e ∈ w.2.2 ∨ e = DLEvent.unlinkStaleFinal ∨ e = DLEvent.renameToFinal := by
  intro e he
  unfold streamFinish at he
  by_cases h1 : w.1 = false
  · rw [if_pos h1] at he; exact Or.inl he
  · rw [if_neg h1] at he
    by_cases h2 : connFail = true
    · rw [if_pos h2] at he; exact Or.inl he
    · rw [if_neg h2] at he
      by_cases h3 : resume = true
      · rw [if_pos h3] at he
        simp only [List.mem_append, List.mem_cons, List.not_mem_nil, or_false] at he
        tauto
      · rw [if_neg h3] at he; exact Or.inl he

theorem streamFinish_final_change (resume connFail : Bool)
    (w : Bool × DLState × List DLEvent)
    (h : (streamFinish resume connFail w).2.1.finalContent ≠ w.2.1.finalContent) :
    DLEvent.renameToFinal ∈ (streamFinish resume connFail w).2.2 := by
  unfold streamFinish at h ⊢
  by_cases h1 : w.1 = false
  · rw [if_pos h1] at h; exact absurd rfl h
  · rw [if_neg h1] at h ⊢
    by_cases h2 : connFail = true
    · rw [if_pos h2] at h; exact absurd rfl h
    · rw [if_neg h2] at h ⊢
      by_cases h3 : resume = true
      · rw [if_pos h3]; simp
      · rw [if_neg h3] at h; exact absurd rfl h

theorem streamFinish_rename_success (resume connFail : Bool)
    (w : Bool × DLState × List DLEvent)
    (hno : DLEvent.renameToFinal ∉ w.2.2)
    (h : DLEvent.renameToFinal ∈ (streamFinish resume connFail w).2.2) :
    (streamFinish resume connFail w).1.success = true := by
  unfold streamFinish at h ⊢
  by_cases h1 : w.1 = false
  · rw [if_pos h1] at h; exact absurd h hno
  · rw [if_neg h1] at h ⊢
    by_cases h2 : connFail = true
    · rw [if_pos h2] at h; exact absurd h hno
    · rw [if_neg h2] at h ⊢
      by_cases h3 : resume = true
      · rw [if_pos h3]
      · rw [if_neg h3] at h; exact absurd h hno

theorem streamFinish_connFail (resume : Bool) (w : Bool × DLState × List DLEvent)
    (hw : w.1 = true) :
    streamFinish resume true w =
      ({ success := false, statusCode := none, message := some "ConnectionError" },
       w.2.1, w.2.2) := by
  unfold streamFinish
  rw [if_neg (by simp [hw]), if_pos rfl]

/-! ## Claim C4 -/

/-- C4, counterexample: with `resume = False` the backend writes
in-progress bytes directly to the final destination (lines 145-150 set
`temp_path = local_path`), so an interrupted two-chunk transfer leaves a
partial artifact at the final path, with a byte write targeting the final
path and no rename in the trace.  The claim's "for every value of the
resume parameter" is therefore false. -/
theorem c4_sidecar_counterexample :
    download_file envDirectWrite false { finalContent := none, sidecarContent := none } =
      ({ success := false, statusCode := none, message := some "interrupted" },
       { finalContent := some [1], sidecarContent := none },
       [DLEvent.writeBytes TargetPath.finalPath [1]]) ∧
    DLEvent.renameToFinal ∉
      (download_file envDirectWrite false
        { finalContent := none, sidecarContent := none }).2.2 ∧
    (some [1] : Option (List Nat)) ≠ some [1, 2] := by
  refine ⟨by decide, by decide, by decide⟩

/-- C4 (amended): when `resume` is true, in-progress bytes are written
only to the `.incomplete` sidecar, the final path's content changes only
through a rename of the sidecar, and a rename happens only on a
successful outcome; the engine's controller always calls the backend with
`resume` left at its default `True` (line 776). -/
theorem c4_sidecar_amended :
    ∀ (env : DLEnv) (st : DLState),
      (∀ t ch, DLEvent.writeBytes t ch ∈ (download_file env true st).2.2 →
        t = TargetPath.sidecarPath) ∧
      ((download_file env true st).2.1.finalContent ≠ st.finalContent →
        DLEvent.renameToFinal ∈ (download_file env true st).2.2) ∧
      (DLEvent.renameToFinal ∈ (download_file env true st).2.2 →
        (download_file env true st).1.success = true) := by
  intro env st
  cases henv : env.response with
  | rangeNotSatisfiable =>
    by_cases hs : st.sidecarContent.isSome = true
    · simp [download_file, henv, hs]
    · simp [download_file, henv, hs]
  | errStatus code =>
    by_cases hp : permStatus code = true
    · simp [download_file, henv, hp, setC]
    · simp [download_file, henv, hp]
  | stream chunks connFail =>
    have hst : download_file env true st =
        streamFinish true connFail
          (writeLoop env.intrFrom TargetPath.sidecarPath chunks 0
            (if st.sidecarContent.isSome = true then st
             else setC st TargetPath.sidecarPath (some []))) := by
      simp [download_file, henv]
    have wfinal : (writeLoop env.intrFrom TargetPath.sidecarPath chunks 0
        (if st.sidecarContent.isSome = true then st
         else setC st TargetPath.sidecarPath (some []))).2.1.finalContent =
        st.finalContent := by
      rw [writeLoop_final_inv]
      split <;> simp [setC]
    have wev := writeLoop_events_write env.intrFrom TargetPath.sidecarPath chunks 0
      (if st.sidecarContent.isSome = true then st
       else setC st TargetPath.sidecarPath (some []))
    have hno : DLEvent.renameToFinal ∉ (writeLoop env.intrFrom TargetPath.sidecarPath
        chunks 0 (if st.sidecarContent.isSome = true then st
                  else setC st TargetPath.sidecarPath (some []))).2.2 := by
      intro h
      obtain ⟨ch, hch⟩ := wev _ h
      exact absurd hch (by simp)
    rw [hst]
    refine ⟨?_, ?_, ?_⟩
    · intro t ch hmem
      rcases streamFinish_trace _ _ _ _ hmem with h | h | h
      · obtain ⟨ch', hch⟩ := wev _ h
        injection hch with h1 h2
      · exact absurd h (by simp)
      · exact absurd h (by simp)
    · intro hne
      exact streamFinish_final_change _ _ _ (by rw [wfinal]; exact hne)
    · exact streamFinish_rename_success _ _ _ hno

/-- C4 (amended) witness at a concrete two-chunk resumed stream: the
final content changes, hence the rename event is in the trace. -/
theorem c4_sidecar_amended_witness :
    DLEvent.renameToFinal ∈
      (download_file { response := HttpResponse.stream [[1], [2]] false, intrFrom := none }
        true { finalContent := none, sidecarContent := none }).2.2 :=
  (c4_sidecar_amended { response := HttpResponse.stream [[1], [2]] false, intrFrom := none }
    { finalContent := none, sidecarContent := none }).2.1 (by decide)

/-! ## Claim C7 -/

/-- C7: on a 416 ("range not satisfiable") reply with an existing sidecar,
a resumed fetch unlinks the stale final file, renames the sidecar to the
final path, re-fetches no bytes, and reports success
(lines 179-185). -/
theorem c7_range_not_satisfiable_promotes :
    ∀ (env : DLEnv) (st : DLState) (c : List Nat),
      env.response = HttpResponse.rangeNotSatisfiable →
      st.sidecarContent = some c →
      download_file env true st =
        ({ success := true, statusCode := none, message := none },
         { finalContent := some c, sidecarContent := none },
         [DLEvent.unlinkStaleFinal, DLEvent.renameToFinal]) := by
  intro env st c hr hs
  simp [download_file, hr, hs]

/-- C7 witness: a concrete 416 reply with sidecar content `[7]`. -/
theorem c7_witness :
    download_file { response := HttpResponse.rangeNotSatisfiable, intrFrom := none } true
        { finalContent := some [9], sidecarContent := some [7] } =
      ({ success := true, statusCode := none, message := none },
       { finalContent := some [7], sidecarContent := none },
       [DLEvent.unlinkStaleFinal, DLEvent.renameToFinal]) :=
  c7_range_not_satisfiable_promotes _ _ [7] rfl rfl

/-! ## Claim C8 -/

/-- C8: a fetch failing for any reason other than a 401/403/404 response
(server error status, connection failure mid-stream) returns
`success = false` with `statusCode` unset and leaves the sidecar intact;
the sidecar is unlinked inside the backend exactly on a 401/403/404
response, whose status code is recorded in the outcome
(lines 215-229). -/
theorem c8_transient_preserves_sidecar :
    (∀ (env : DLEnv) (resume : Bool) (st : DLState) (code : Nat),
      env.response = HttpResponse.errStatus code → permStatus code = false →
      download_file env resume st =
        ({ success := false, statusCode := none, message := some "HTTPError" },
         st, [])) ∧
    (∀ (env : DLEnv) (st : DLState) (chunks : List (List Nat)),
      env.response = HttpResponse.stream chunks true → env.intrFrom = none →
      (download_file env true st).1.success = false ∧
      (download_file env true st).1.statusCode = none ∧
      (download_file env true st).2.1.sidecarContent.isSome = true ∧
      DLEvent.unlinkTempOnPermFail ∉ (download_file env true st).2.2) ∧
    (∀ (env : DLEnv) (st : DLState) (code : Nat),
      env.response = HttpResponse.errStatus code → permStatus code = true →
      download_file env true st =
        ({ success := false, statusCode := some code, message := some "HTTPError" },
         { finalContent := st.finalContent, sidecarContent := none },
         [DLEvent.unlinkTempOnPermFail])) ∧
    (∀ (env : DLEnv) (resume : Bool) (st : DLState),
      DLEvent.unlinkTempOnPermFail ∈ (download_file env resume st).2.2 →
      ∃ code, env.response = HttpResponse.errStatus code ∧ permStatus code = true) := by
  refine ⟨?_, ?_, ?_, ?_⟩
  · intro env resume st code hr hp
    simp [download_file, hr, hp]
  · intro env st chunks hr hintr
    have hst : download_file env true st =
        streamFinish true true
          (writeLoop none TargetPath.sidecarPath chunks 0
            (if st.sidecarContent.isSome = true then st
             else setC st TargetPath.sidecarPath (some []))) := by
      simp [download_file, hr, hintr]
    have hcomp := writeLoop_completes chunks TargetPath.sidecarPath 0
      (if st.sidecarContent.isSome = true then st
       else setC st TargetPath.sidecarPath (some []))
    have hev := writeLoop_events_write none TargetPath.sidecarPath chunks 0
      (if st.sidecarContent.isSome = true then st
       else setC st TargetPath.sidecarPath (some []))
    have hsome := writeLoop_sidecar_some none chunks 0
      (if st.sidecarContent.isSome = true then st
       else setC st TargetPath.sidecarPath (some []))
      (by split
          · rename_i h; exact h
          · simp [setC])
    rw [hst, streamFinish_connFail _ _ hcomp]
    refine ⟨rfl, rfl, hsome, ?_⟩
    intro hmem
    obtain ⟨ch, hch⟩ := hev _ hmem
    exact absurd hch (by simp)
  · intro env st code hr hp
    simp [download_file, hr, hp, setC]
  · intro env resume st
    cases henv : env.response with
    | rangeNotSatisfiable =>
      by_cases hs : (resume && st.sidecarContent.isSome : Bool) = true <;>
        simp [download_file, henv, hs]
    | errStatus code =>
      by_cases hp : permStatus code = true
      · intro _; exact ⟨code, rfl, hp⟩
      · simp [download_file, henv, hp]
    | stream chunks connFail =>
      by_cases h3 : resume = true
      · subst h3
        have hst : download_file env true st =
            streamFinish true connFail
              (writeLoop env.intrFrom TargetPath.sidecarPath chunks 0
                (if st.sidecarContent.isSome = true then st
                 else setC st TargetPath.sidecarPath (some []))) := by
          simp [download_file, henv]
        have hev := writeLoop_events_write env.intrFrom TargetPath.sidecarPath chunks 0
          (if st.sidecarContent.isSome = true then st
           else setC st TargetPath.sidecarPath (some []))
        rw [hst]
        intro hmem
        rcases streamFinish_trace _ _ _ _ hmem with h | h | h
        · obtain ⟨ch, hch⟩ := hev _ h
          exact absurd hch (by simp)
        · exact absurd h (by simp)
        · exact absurd h (by simp)
      · have h3' : resume = false := by
          cases resume
          · rfl
          · exact absurd rfl h3
        subst h3'
        have hst : download_file env false st =
            streamFinish false connFail
              (writeLoop env.intrFrom TargetPath.finalPath chunks 0
                (setC st TargetPath.finalPath (some []))) := by
          simp [download_file, henv]
        have hev := writeLoop_events_write env.intrFrom TargetPath.finalPath chunks 0
          (setC st TargetPath.finalPath (some []))
        rw [hst]
        intro hmem
        rcases streamFinish_trace _ _ _ _ hmem with h | h | h
        · obtain ⟨ch, hch⟩ := hev _ h
          exact absurd hch (by simp)
        · exact absurd h (by simp)
        · exact absurd h (by simp)

/-! ## Helper lemmas about the per-file controller loop -/

theorem countFetch_append (a b : List Event) :
    countFetch (a ++ b) = countFetch a + countFetch b := by
  simp [countFetch, List.countP_append]

theorem countSwitch_append (a b : List Event) :
    countSwitch (a ++ b) = countSwitch a + countSwitch b := by
  simp [countSwitch, List.countP_append]

theorem countFetch_sleep_cons (l : List Event) :
    countFetch (Event.sleepBackoff :: l) = countFetch l := by
  simp [countFetch, List.countP_cons, isFetchEv]

theorem countSwitch_sleep_cons (l : List Event) :
    countSwitch (Event.sleepBackoff :: l) = countSwitch l := by
  simp [countSwitch, List.countP_cons, isSwitchEv]

theorem fetchStep_cases (env : Env) (a : Nat) (src : Source) (ds : Bool) :
    ((fetchStep env a src ds).events = [Event.fetch src a] ∧
      (fetchStep env a src ds).urlType = src) ∨
    (src = Source.lfs ∧ (fetchStep env a src ds).urlType = Source.hf ∧
      (fetchStep env a src ds).events =
        [Event.fetch Source.lfs a, Event.removeArtifact, Event.switchSource]) := by
  cases src
  · cases hl : env.lfsFetch a with
    | res r =>
      by_cases hs : r.success = true
      · left; simp [fetchStep, hl, hs]
      · cases hc : r.statusCode with
        | some c =>
          by_cases hp : permStatus c = true
          · right; simp [fetchStep, hl, hs, hc, hp]
          · left; simp [fetchStep, hl, hs, hc, hp]
        | none => left; simp [fetchStep, hl, hs, hc]
    | exc => left; simp [fetchStep, hl]
  · cases hh : env.hfFetch a with
    | ok => left; simp [fetchStep, hh]
    | excStatus c =>
      by_cases hp : permStatus c = true
      · left; simp [fetchStep, hh, hp]
      · left; simp [fetchStep, hh, hp]
    | excOther => left; simp [fetchStep, hh]

theorem fetchStep_countFetch (env : Env) (a : Nat) (src : Source) (ds : Bool) :
    countFetch (fetchStep env a src ds).events = 1 := by
  rcases fetchStep_cases env a src ds with ⟨he, _⟩ | ⟨_, _, he⟩ <;>
    simp [he, countFetch, List.countP_cons, isFetchEv]

theorem fetchStep_transient (env : Env) (a : Nat) (src : Source) (ds : Bool)
    (hl : lfsTransient (env.lfsFetch a) = true)
    (hh : hfTransient (env.hfFetch a) = true) :
    fetchStep env a src ds =
      { early := none, urlType := src, downloadSuccess := ds,
        events := [Event.fetch src a] } := by
  cases src
  · cases hf : env.lfsFetch a with
    | res r =>
      rw [hf] at hl
      simp only [lfsTransient, Bool.and_eq_true, Bool.not_eq_true'] at hl
      obtain ⟨hs, hc⟩ := hl
      cases hcc : r.statusCode with
      | some c =>
        rw [hcc] at hc
        simp only [Bool.not_eq_true'] at hc
        simp [fetchStep, hf, hs, hcc, hc]
      | none => simp [fetchStep, hf, hs, hcc]
    | exc => simp [fetchStep, hf]
  · cases hf : env.hfFetch a with
    | ok => rw [hf] at hh; simp [hfTransient] at hh
    | excStatus c =>
      rw [hf] at hh
      simp only [hfTransient, Bool.not_eq_true'] at hh
      simp [fetchStep, hf, hh]
    | excOther => simp [fetchStep, hf]

theorem rts_fetch (s : Source) (a : Nat) (l : List Event) :
    remThenSwitch (Event.fetch s a :: l) = remThenSwitch l := rfl

theorem rts_sleep (l : List Event) :
    remThenSwitch (Event.sleepBackoff :: l) = remThenSwitch l := rfl

theorem rts_pair (l : List Event) :
    remThenSwitch (Event.removeArtifact :: Event.switchSource :: l) =
      remThenSwitch l := rfl

theorem countFetch_runLoopF_le (env : Env) (maxAttempts : Nat) :
    ∀ fuel st, countFetch (runLoopF env maxAttempts fuel st).2 ≤
      maxAttempts - st.attempt := by
  intro fuel
  induction fuel with
  | zero =>
    intro st
    rw [runLoopF]
    split
    · simp [countFetch]
    split
    · simp [countFetch]
    split
    · simp [countFetch]
    · simp [countFetch]
  | succ fuel ih =>
    intro st
    rw [runLoopF]
    split
    · simp [countFetch]
    split
    · simp [countFetch]
    split
    · simp [countFetch]
    rename_i h1 h2 h3
    have hlt : st.attempt < maxAttempts := by omega
    cases he : (fetchStep env (st.attempt + 1) st.urlType st.downloadSuccess).early with
    | some r =>
      simp only [he]
      have := fetchStep_countFetch env (st.attempt + 1) st.urlType st.downloadSuccess
      omega
    | none =>
      simp only [he]
      have hcf := fetchStep_countFetch env (st.attempt + 1) st.urlType st.downloadSuccess
      have hrec : countFetch (runLoopF env maxAttempts fuel
          ⟨st.attempt + 1,
            (fetchStep env (st.attempt + 1) st.urlType st.downloadSuccess).urlType,
            (fetchStep env (st.attempt + 1) st.urlType st.downloadSuccess).downloadSuccess,
            true⟩).2 ≤ maxAttempts - (st.attempt + 1) := ih _
      split
      · split
        · simp only [countFetch_append, countFetch_sleep_cons]
          omega
        · dsimp only
          omega
      · simp only [countFetch_append]
        omega

theorem countSwitch_runLoopF_le (env : Env) (maxAttempts : Nat) :
    ∀ fuel st, countSwitch (runLoopF env maxAttempts fuel st).2 ≤
      (if st.urlType = Source.lfs then 1 else 0) := by
  intro fuel
  induction fuel with
  | zero =>
    intro st
    rw [runLoopF]
    split
    · simp [countSwitch]
    split
    · simp [countSwitch]
    split
    · simp [countSwitch]
    · simp [countSwitch]
  | succ fuel ih =>
    intro st
    rw [runLoopF]
    split
    · simp [countSwitch]
    split
    · simp [countSwitch]
    split
    · simp [countSwitch]
    rename_i h1 h2 h3
    cases he : (fetchStep env (st.attempt + 1) st.urlType st.downloadSuccess).early with
    | some r =>
      simp only [he]
      rcases fetchStep_cases env (st.attempt + 1) st.urlType st.downloadSuccess with
        ⟨hev, _⟩ | ⟨hsrc, _, hev⟩
      · have h0 : countSwitch (fetchStep env (st.attempt + 1) st.urlType
            st.downloadSuccess).events = 0 := by
          rw [hev]; simp [countSwitch, List.countP_cons, isSwitchEv]
        rw [h0]
        exact Nat.zero_le _
      · have h1 : countSwitch (fetchStep env (st.attempt + 1) st.urlType
            st.downloadSuccess).events = 1 := by
          rw [hev]; simp [countSwitch, List.countP_cons, isSwitchEv]
        rw [h1]
        simp [hsrc]
    | none =>
      simp only [he]
      have hrec : countSwitch (runLoopF env maxAttempts fuel
          ⟨st.attempt + 1,
            (fetchStep env (st.attempt + 1) st.urlType st.downloadSuccess).urlType,
            (fetchStep env (st.attempt + 1) st.urlType st.downloadSuccess).downloadSuccess,
            true⟩).2 ≤
          (if (fetchStep env (st.attempt + 1) st.urlType
              st.downloadSuccess).urlType = Source.lfs then 1 else 0) := ih _
      rcases fetchStep_cases env (st.attempt + 1) st.urlType st.downloadSuccess with
        ⟨hev, hurl⟩ | ⟨hsrc, hurl, hev⟩
      · rw [hurl] at hrec ⊢
        have h0 : countSwitch (fetchStep env (st.attempt + 1) st.urlType
            st.downloadSuccess).events = 0 := by
          rw [hev]; simp [countSwitch, List.countP_cons, isSwitchEv]
        split
        · split
          · simp only [countSwitch_append, countSwitch_sleep_cons, h0]
            omega
          · dsimp only
            rw [h0]
            exact Nat.zero_le _
        · simp only [countSwitch_append, h0]
          omega
      · rw [hsrc] at hurl hev hrec ⊢
        rw [hurl] at hrec ⊢
        have hz : (if Source.hf = Source.lfs then (1 : Nat) else 0) = 0 := rfl
        rw [hz] at hrec
        have hone : (if Source.lfs = Source.lfs then (1 : Nat) else 0) = 1 := rfl
        rw [hone]
        have h1 : countSwitch (fetchStep env (st.attempt + 1) Source.lfs
            st.downloadSuccess).events = 1 := by
          rw [hev]; simp [countSwitch, List.countP_cons, isSwitchEv]
        split
        · split
          · simp only [countSwitch_append, countSwitch_sleep_cons, h1]
            omega
          · dsimp only
            rw [h1]
        · simp only [countSwitch_append, h1]
          omega

theorem remThenSwitch_runLoopF (env : Env) (maxAttempts : Nat) :
    ∀ fuel st, remThenSwitch (runLoopF env maxAttempts fuel st).2 = true := by
  intro fuel
  induction fuel with
  | zero =>
    intro st
    rw [runLoopF]
    split
    · rfl
    split
    · rfl
    split
    · rfl
    · rfl
  | succ fuel ih =>
    intro st
    rw [runLoopF]
    split
    · rfl
    split
    · rfl
    split
    · rfl
    rename_i h1 h2 h3
    cases he : (fetchStep env (st.attempt + 1) st.urlType st.downloadSuccess).early with
    | some r =>
      simp only [he]
      rcases fetchStep_cases env (st.attempt + 1) st.urlType st.downloadSuccess with
        ⟨hev, _⟩ | ⟨_, _, hev⟩ <;> simp [hev, rts_fetch, rts_pair, remThenSwitch]
    | none =>
      simp only [he]
      have hrec : remThenSwitch (runLoopF env maxAttempts fuel
          ⟨st.attempt + 1,
            (fetchStep env (st.attempt + 1) st.urlType st.downloadSuccess).urlType,
            (fetchStep env (st.attempt + 1) st.urlType st.downloadSuccess).downloadSuccess,
            true⟩).2 = true := ih _
      rcases fetchStep_cases env (st.attempt + 1) st.urlType st.downloadSuccess with
        ⟨hev, _⟩ | ⟨_, _, hev⟩
      · split
        · split
          · simp only [hev, List.cons_append, List.nil_append, rts_fetch, rts_sleep]
            exact hrec
          · simp [hev, rts_fetch, remThenSwitch]
        · simp only [hev, List.cons_append, List.nil_append, rts_fetch]
          exact hrec
      · split
        · split
          · simp only [hev, List.cons_append, List.nil_append, rts_fetch, rts_sleep,
              rts_pair]
            exact hrec
          · simp [hev, rts_fetch, rts_pair, remThenSwitch]
        · simp only [hev, List.cons_append, List.nil_append, rts_fetch, rts_pair]
          exact hrec

theorem runLoopF_transient (env : Env) (maxAttempts : Nat)
    (hl : ∀ a, lfsTransient (env.lfsFetch a) = true)
    (hh : ∀ a, hfTransient (env.hfFetch a) = true)
    (hv : ∀ a f, env.verify a f = false)
    (hi : ∀ a, env.interrupted a = false) :
    ∀ fuel st, maxAttempts - st.attempt ≤ fuel → st.downloadSuccess = false →
      (runLoopF env maxAttempts fuel st).1.success = false ∧
      countFetch (runLoopF env maxAttempts fuel st).2 = maxAttempts - st.attempt := by
  intro fuel
  induction fuel with
  | zero =>
    intro st hfu hds
    have hle : maxAttempts ≤ st.attempt := by omega
    rw [runLoopF]
    rw [if_neg (by simp [hi]), if_neg (by simp [hv]), if_pos hle]
    simp [countFetch]
    omega
  | succ fuel ih =>
    intro st hfu hds
    rw [runLoopF]
    rw [if_neg (by simp [hi]), if_neg (by simp [hv])]
    by_cases hle : maxAttempts ≤ st.attempt
    · rw [if_pos hle]
      simp [countFetch]
      omega
    · rw [if_neg hle]
      dsimp only
      rw [fetchStep_transient env (st.attempt + 1) st.urlType st.downloadSuccess
        (hl _) (hh _)]
      dsimp only
      rw [hds]
      by_cases hlt : st.attempt + 1 < maxAttempts
      · rw [if_pos rfl, if_pos hlt]
        have hrec : (runLoopF env maxAttempts fuel
              ⟨st.attempt + 1, st.urlType, false, true⟩).1.success = false ∧
            countFetch (runLoopF env maxAttempts fuel
              ⟨st.attempt + 1, st.urlType, false, true⟩).2 =
              maxAttempts - (st.attempt + 1) :=
          ih ⟨st.attempt + 1, st.urlType, false, true⟩ (by dsimp only; omega) rfl
        refine ⟨hrec.1, ?_⟩
        simp only [countFetch_append, countFetch_sleep_cons, hrec.2]
        have : countFetch [Event.fetch st.urlType (st.attempt + 1)] = 1 := by
          simp [countFetch, List.countP_cons, isFetchEv]
        omega
      · rw [if_pos rfl, if_neg hlt]
        refine ⟨rfl, ?_⟩
        dsimp only
        have : countFetch [Event.fetch st.urlType (st.attempt + 1)] = 1 := by
          simp [countFetch, List.countP_cons, isFetchEv]
        omega

theorem tallyFailed_eq (l : List CompletedEntry) :
    tallyFailed l =
      (l.takeWhile fun e => !e.flagSet).countP fun e => !e.result.success := by
  induction l with
  | nil => rfl
  | cons e rest ih =>
    by_cases hf : (!e.flagSet) = true
    · have hf' : e.flagSet = false := by simpa using hf
      rw [@List.takeWhile_cons_of_pos _ (fun x => !x.flagSet) e rest hf, List.countP_cons]
      cases hs : e.result.success
      · simp [tallyFailed, hf', hs, ih]
        omega
      · simp [tallyFailed, hf', hs, ih]
    · have hf' : e.flagSet = true := by simpa using hf
      rw [@List.takeWhile_cons_of_neg _ (fun x => !x.flagSet) e rest hf]
      simp [tallyFailed, hf', List.countP_nil]

theorem mem_takeWhile_flag (l : List CompletedEntry) :
    ∀ e ∈ l.takeWhile fun x => !x.flagSet, e.flagSet = false ∧ e ∈ l := by
  induction l with
  | nil => intro e he; simp [List.takeWhile] at he
  | cons a rest ih =>
    intro e he
    by_cases hf : (!a.flagSet) = true
    · rw [@List.takeWhile_cons_of_pos _ (fun x => !x.flagSet) a rest hf, List.mem_cons] at he
      rcases he with he | he
      · subst he
        exact ⟨by simpa using hf, List.mem_cons_self _ _⟩
      · obtain ⟨h1, h2⟩ := ih e he
        exact ⟨h1, List.mem_cons_of_mem _ h2⟩
    · rw [@List.takeWhile_cons_of_neg _ (fun x => !x.flagSet) a rest hf] at he
      simp at he

/-! ## Claim C1 -/

/-- C1: source failover.  (i) A run never performs more than one source
switch, and performs none at all once the task is on the fallback (the
source never switches back); (ii) every switch is immediately preceded by
the removal of the primary's partial artifact; (iii) a permanent-failure
status (401/403/404) from the primary removes the artifact, switches to
the fallback and continues with the attempt counter advanced to
`attempt + 1`, not reset; (iv) a permanent-failure status while already on
the fallback terminates the task as a failure at once. -/
theorem c1_failover :
    (∀ (env : Env) (maxAttempts : Nat) (st : LoopState),
      countSwitch (runLoop env maxAttempts st).2 ≤
        (if st.urlType = Source.lfs then 1 else 0)) ∧
    (∀ (env : Env) (maxAttempts : Nat) (st : LoopState),
      remThenSwitch (runLoop env maxAttempts st).2 = true) ∧
    (∀ (env : Env) (maxAttempts : Nat) (st : LoopState) (r : DownloadResult) (c : Nat),
      st.urlType = Source.lfs → st.downloadSuccess = false →
      env.interrupted st.attempt = false →
      env.verify st.attempt st.performedDownload = false →
      st.attempt + 1 < maxAttempts →
      env.lfsFetch (st.attempt + 1) = LfsOutcome.res r →
      r.success = false → r.statusCode = some c → permStatus c = true →
      runLoop env maxAttempts st =
        ((runLoop env maxAttempts ⟨st.attempt + 1, Source.hf, false, true⟩).1,
         Event.fetch Source.lfs (st.attempt + 1) :: Event.removeArtifact ::
           Event.switchSource :: Event.sleepBackoff ::
           (runLoop env maxAttempts ⟨st.attempt + 1, Source.hf, false, true⟩).2)) ∧
    (∀ (env : Env) (maxAttempts : Nat) (st : LoopState) (c : Nat),
      st.urlType = Source.hf →
      env.interrupted st.attempt = false →
      env.verify st.attempt st.performedDownload = false →
      st.attempt < maxAttempts →
      env.hfFetch (st.attempt + 1) = HfOutcome.excStatus c → permStatus c = true →
      runLoop env maxAttempts st =
        ({ success := false, downloaded := true, urlType := Source.hf },
         [Event.fetch Source.hf (st.attempt + 1)])) := by
  refine ⟨?_, ?_, ?_, ?_⟩
  · intro env maxAttempts st
    exact countSwitch_runLoopF_le env maxAttempts _ st
  · intro env maxAttempts st
    exact remThenSwitch_runLoopF env maxAttempts _ st
  · intro env maxAttempts st r c hsrc hds hi hv hlt hf hrs hrc hp
    have hk : maxAttempts - st.attempt = (maxAttempts - (st.attempt + 1)) + 1 := by
      omega
    unfold runLoop
    rw [hk]
    rw [runLoopF]
    rw [if_neg (by simp [hi]), if_neg (by simp [hv]),
      if_neg (by omega : ¬ maxAttempts ≤ st.attempt)]
    dsimp only
    have hstep : fetchStep env (st.attempt + 1) st.urlType st.downloadSuccess =
        { early := none, urlType := Source.hf, downloadSuccess := false,
          events := [Event.fetch Source.lfs (st.attempt + 1), Event.removeArtifact,
                     Event.switchSource] } := by
      rw [hsrc, hds]
      simp [fetchStep, hf, hrs, hrc, hp]
    rw [hstep]
    dsimp only
    rw [if_pos rfl, if_pos hlt]
    rfl
  · intro env maxAttempts st c hsrc hi hv hlt hf hp
    have hk : maxAttempts - st.attempt = (maxAttempts - (st.attempt + 1)) + 1 := by
      omega
    unfold runLoop
    rw [hk]
    rw [runLoopF]
    rw [if_neg (by simp [hi]), if_neg (by simp [hv]),
      if_neg (by omega : ¬ maxAttempts ≤ st.attempt)]
    dsimp only
    have hstep : fetchStep env (st.attempt + 1) st.urlType st.downloadSuccess =
        { early := some { success := false, downloaded := true, urlType := Source.hf },
          urlType := Source.hf, downloadSuccess := st.downloadSuccess,
          events := [Event.fetch Source.hf (st.attempt + 1)] } := by
      rw [hsrc]
      simp [fetchStep, hf, hp]
    rw [hstep]

/-- C1 witness: with `envSwitch` (primary always 404, fallback always a
403-carrying exception) and budget 3, the first attempt removes the
artifact and switches to the fallback without resetting the counter, and
the second attempt fails permanently on the fallback, ending the task. -/
theorem c1_failover_witness :
    runLoop envSwitch 3
        { attempt := 0, urlType := Source.lfs,
          downloadSuccess := false, performedDownload := false } =
      ((runLoop envSwitch 3 ⟨1, Source.hf, false, true⟩).1,
       Event.fetch Source.lfs 1 :: Event.removeArtifact :: Event.switchSource ::
         Event.sleepBackoff :: (runLoop envSwitch 3 ⟨1, Source.hf, false, true⟩).2) ∧
    runLoop envSwitch 3 ⟨1, Source.hf, false, true⟩ =
      ({ success := false, downloaded := true, urlType := Source.hf },
       [Event.fetch Source.hf 2]) :=
  by
  have h1 := c1_failover.2.2.1 envSwitch 3
    { attempt := 0, urlType := Source.lfs, downloadSuccess := false,
      performedDownload := false }
    { success := false, statusCode := some 404 } 404
    rfl rfl rfl rfl (by decide) rfl rfl rfl (by decide)
  have h2 := c1_failover.2.2.2 envSwitch 3 ⟨1, Source.hf, false, true⟩ 403
    rfl rfl rfl (by decide) rfl (by decide)
  exact ⟨h1, h2⟩

/-! ## Claim C2 -/

/-- C2: the attempt counter is one budget shared across both sources -
no run ever performs more than `maxAttempts - attempt` further fetches,
whatever the outcomes - and a task all of whose fetches fail transiently
reports failure after exactly `maxAttempts` fetch attempts, never
more. -/
theorem c2_retry_bound :
    (∀ (env : Env) (maxAttempts : Nat) (st : LoopState),
      countFetch (runLoop env maxAttempts st).2 ≤ maxAttempts - st.attempt) ∧
    (∀ (env : Env) (maxAttempts : Nat) (src : Source),
      (∀ a, lfsTransient (env.lfsFetch a) = true) →
      (∀ a, hfTransient (env.hfFetch a) = true) →
      (∀ a f, env.verify a f = false) →
      (∀ a, env.interrupted a = false) →
      (download_and_verify_file env maxAttempts src).1.success = false ∧
      countFetch (download_and_verify_file env maxAttempts src).2 = maxAttempts) := by
  constructor
  · intro env maxAttempts st
    exact countFetch_runLoopF_le env maxAttempts _ st
  · intro env maxAttempts src hl hh hv hi
    have h := runLoopF_transient env maxAttempts hl hh hv hi (maxAttempts - 0)
      ⟨0, src, false, false⟩ (by omega) rfl
    exact ⟨h.1, h.2⟩

/-- C2 witness: with every fetch an exception and budget 2, the task
fails after exactly 2 fetch attempts. -/
theorem c2_retry_bound_witness :
    (download_and_verify_file envTrans 2 Source.lfs).1.success = false ∧
    countFetch (download_and_verify_file envTrans 2 Source.lfs).2 = 2 :=
  c2_retry_bound.2 envTrans 2 Source.lfs (fun _ => rfl) (fun _ => rfl)
    (fun _ _ => rfl) (fun _ => rfl)

/-! ## Claim C5 -/

/-- C5, counterexample: a task that observes the cancellation signal
(`envCancel`, the interrupted branch of lines 747-749) returns the very
same result value `{"success": False, "downloaded": False, "url_type": _}`
as a task that exhausts its attempt budget and fails (lines 764-767 with
`maxAttempts = 0`): there is no distinct Cancelled outcome in the task's
result. -/
theorem c5_cancel_counterexample :
    (download_and_verify_file envCancel 5 Source.lfs).1 =
      (download_and_verify_file envNoVerify 0 Source.lfs).1 ∧
    (download_and_verify_file envCancel 5 Source.lfs).1 =
      { success := false, downloaded := false, urlType := Source.lfs } :=
  ⟨by decide, by decide⟩

/-- C5 (amended): a cancelled task returns the same failure-shaped result
value as a Failed task - there is no distinct per-task Cancelled outcome.
However, because the shared `interrupted` flag is set before any
cancelled result is returned, the aggregation loop of download_repo
breaks at the first future it processes with the flag set, so the
`failed_downloads` tally counts only results processed before the flag
was observed, none of which comes from a cancelled task; the interrupted
run is signalled by the process-level flag instead, making main exit with
code 130, distinct from the content-failure exit code. -/
theorem c5_cancel_amended :
    (∀ l : List CompletedEntry,
      (∀ e ∈ l, e.wasCancelled = true → e.flagSet = true) →
      tallyFailed l =
        ((l.takeWhile fun e => !e.flagSet).countP fun e => !e.result.success) ∧
      (∀ e ∈ l.takeWhile fun e => !e.flagSet, e.wasCancelled = false)) ∧
    (∀ success : Bool,
      mainExitCode true success = 130 ∧ mainExitCode false success ≠ 130) := by
  constructor
  · intro l hl
    refine ⟨tallyFailed_eq l, ?_⟩
    intro e he
    obtain ⟨hf, hmem⟩ := mem_takeWhile_flag l e he
    cases hw : e.wasCancelled
    · rfl
    · exact absurd (hl e hmem hw) (by simp [hf])
  · intro success
    cases success <;> exact ⟨rfl, by decide⟩

/-- C5 (amended) witness: on the concrete completion sequence `cList`
(one genuine failure processed before the interrupt, then a cancelled
task processed with the flag set) the tally counts exactly the
pre-interrupt entries, and no counted entry is a cancelled task. -/
theorem c5_cancel_amended_witness :
    (tallyFailed cList =
      ((cList.takeWhile fun e => !e.flagSet).countP fun e => !e.result.success) ∧
     (∀ e ∈ cList.takeWhile fun e => !e.flagSet, e.wasCancelled = false)) ∧
    tallyFailed cList = 1 :=
  ⟨c5_cancel_amended.1 cList (by decide), by decide⟩

/-! ## Claim C9 -/

/-- C9: a task whose very first verification succeeds (an
already-complete tree on a second run) returns success with
`downloaded = False` and performs zero backend fetch calls
(lines 746-762). -/
theorem c9_idempotent_no_fetch :
    ∀ (env : Env) (maxAttempts : Nat) (src : Source),
      env.interrupted 0 = false → env.verify 0 false = true →
      download_and_verify_file env maxAttempts src =
        ({ success := true, downloaded := false, urlType := src }, []) ∧
      countFetch (download_and_verify_file env maxAttempts src).2 = 0 := by
  intro env maxAttempts src hi hv
  have h : download_and_verify_file env maxAttempts src =
      ({ success := true, downloaded := false, urlType := src }, []) := by
    unfold download_and_verify_file runLoop
    rw [runLoopF.eq_def]
    dsimp only
    rw [if_neg (by simp [hi]), if_pos (by simpa using hv)]
  exact ⟨h, by rw [h]; rfl⟩

/-- C9 witness: with `envVerified` (first verification passes) no fetch
happens and the task reports success without download. -/
theorem c9_idempotent_no_fetch_witness :
    download_and_verify_file envVerified 5 Source.lfs =
      ({ success := true, downloaded := false, urlType := Source.lfs }, []) ∧
    countFetch (download_and_verify_file envVerified 5 Source.lfs).2 = 0 :=
  c9_idempotent_no_fetch envVerified 5 Source.lfs rfl rfl

/-- C8 witness: concrete instances of the non-permanent (500) and
permanent (404) failure branches. -/
theorem c8_witness :
    download_file { response := HttpResponse.errStatus 500, intrFrom := none } true
        { finalContent := none, sidecarContent := some [3] } =
      ({ success := false, statusCode := none, message := some "HTTPError" },
       { finalContent := none, sidecarContent := some [3] }, []) ∧
    download_file { response := HttpResponse.errStatus 404, intrFrom := none } true
        { finalContent := none, sidecarContent := some [3] } =
      ({ success := false, statusCode := some 404, message := some "HTTPError" },
       { finalContent := none, sidecarContent := none },
       [DLEvent.unlinkTempOnPermFail]) :=
  ⟨c8_transient_preserves_sidecar.1 _ true _ 500 rfl (by decide),
   c8_transient_preserves_sidecar.2.2.1 _ _ 404 rfl (by decide)⟩

/-! ## Claim C3 -/

/-- C3: verification of a file whose manifest entry carries a known
expected size returns false whenever the local size differs, for every
hash and metadata oracle (hence regardless of any stored or expected
fingerprint), with an empty action trace - no fingerprint computation and
no metadata access happen before the failure; a non-existent local file
fails immediately the same way (lines 659-669). -/
theorem c3_size_check :
    ∀ (ctx : VerifyCtx) (io : VerifyIO) (lf : LocalFile) (fi : FileInfo)
      (force : Bool) (store : Option MetaRecord),
      (lf.present = false →
        verify_file_integrity ctx io lf fi force store = (false, store, [])) ∧
      (∀ n, lf.present = true → fi.size = some n → lf.size ≠ n →
        verify_file_integrity ctx io lf fi force store = (false, store, [])) := by
  intro ctx io lf fi force store
  constructor
  · intro h
    simp [verify_file_integrity, h]
  · intro n hp hs hne
    have hsm : sizeMismatch fi lf.size = true := by
      simp [sizeMismatch, hs, hne]
    simp [verify_file_integrity, hp, hsm]

/-- C3 witness: a 5-byte local file against an entry expecting 7 bytes
fails verification with no metadata action, whatever the oracles. -/
theorem c3_size_check_witness :
    verify_file_integrity hashCtx
        { writeOk1 := true, writeOk2 := true, readOk1 := true, readOk2 := true }
        { present := true, size := 5, content := [1] } sizedFile true none =
      (false, none, []) :=
  (c3_size_check hashCtx
    { writeOk1 := true, writeOk2 := true, readOk1 := true, readOk2 := true }
    { present := true, size := 5, content := [1] } sizedFile true none).2 7
    rfl rfl (by decide)

/-! ## Claim C6 -/

/-- C6, counterexample: when the metadata record is (re)written for an
LFS file, the stored etag is the full-content hash of the local bytes
(`sha_fileobj`, lines 716-718): it varies with the content while the
manifest-declared fingerprint "manifestsha" stays fixed, and differs from
that fingerprint.  The code therefore re-hashes LFS files instead of
trusting the manifest fingerprint, and the 50 MB `lfs_size_threshold` of
line 534 plays no part in the decision. -/
theorem c6_hash_counterexample :
    (write_local_metadata hashCtx true [1, 2, 3] lfsManifestFile none).1 =
      some { commitHash := some "rev", etag := "sha3" } ∧
    (write_local_metadata hashCtx true [1, 2, 3, 4] lfsManifestFile none).1 =
      some { commitHash := some "rev", etag := "sha4" } ∧
    extract_expected_etag lfsManifestFile = some "manifestsha" ∧
    ("sha3" : String) ≠ "manifestsha" ∧
    VAction.hashFullContent ∈
      (write_local_metadata hashCtx true [1, 2, 3] lfsManifestFile none).2 :=
  ⟨by decide, by decide, by decide, by decide, by decide⟩

/-- C6 (amended): when a refresh is forced or no record exists, the
metadata writer computes a full content hash for every file regardless of
size - the SHA-256 of the content for LFS files, the git blob hash for
non-LFS files - and stores it with the resolved commit hash; the
manifest-declared fingerprint is never the stored value, and a forced
verification of an LFS file leaves exactly the content's SHA-256 in the
store. -/
theorem c6_hash_amended :
    (∀ (ctx : VerifyCtx) (content : List Nat) (fi : FileInfo)
        (store : Option MetaRecord),
      is_lfs_file fi = true →
      (write_local_metadata ctx true content fi store).1 =
        some { commitHash := ctx.resolvedCommitHash, etag := ctx.shaHash content }) ∧
    (∀ (ctx : VerifyCtx) (content : List Nat) (fi : FileInfo)
        (store : Option MetaRecord),
      is_lfs_file fi = false →
      (write_local_metadata ctx true content fi store).1 =
        some { commitHash := ctx.resolvedCommitHash,
               etag := ctx.gitBlobHash content }) ∧
    (∀ (ctx : VerifyCtx) (io : VerifyIO) (lf : LocalFile) (fi : FileInfo)
        (store : Option MetaRecord),
      io.writeOk1 = true → io.writeOk2 = true →
      lf.present = true → sizeMismatch fi lf.size = false → is_lfs_file fi = true →
      (verify_file_integrity ctx io lf fi true store).2.1 =
        some { commitHash := ctx.resolvedCommitHash,
               etag := ctx.shaHash lf.content }) := by
  refine ⟨?_, ?_, ?_⟩
  · intro ctx content fi store h
    simp [write_local_metadata, h]
  · intro ctx content fi store h
    simp [write_local_metadata, h]
  · intro ctx io lf fi store hw1 hw2 hp hsm hlfs
    by_cases hr1 : io.readOk1 = true
    · simp [verify_file_integrity, hp, hsm, write_local_metadata, hw1, hlfs, hr1]
    · by_cases hr2 : io.readOk2 = true <;>
        simp [verify_file_integrity, hp, hsm, write_local_metadata, hw1, hw2, hlfs,
          hr1, hr2]

/-- C6 (amended) witness: a forced verification of the concrete LFS entry
stores the content hash "sha3", not the manifest fingerprint. -/
theorem c6_hash_amended_witness :
    (verify_file_integrity hashCtx
        { writeOk1 := true, writeOk2 := true, readOk1 := true, readOk2 := true }
        { present := true, size := 3, content := [1, 2, 3] } lfsManifestFile true
        none).2.1 =
      some { commitHash := some "rev", etag := "sha3" } :=
  (c6_hash_amended.2.2 hashCtx
    { writeOk1 := true, writeOk2 := true, readOk1 := true, readOk2 := true }
    { present := true, size := 3, content := [1, 2, 3] } lfsManifestFile none
    rfl rfl rfl rfl rfl).trans (by decide)

/-! ## Claim C10 -/

/-- C10: a non-empty manifest all of whose entries are removed by the
include/exclude substring filters makes download_repo return True before
any task is built (so no fetch and no per-file verification can occur),
while an empty or unobtainable file list - reported as the empty list -
returns False before the filters run, and a failing repository validation
returns False even earlier (lines 863-931). -/
theorem c10_filtered_out :
    (∀ (files : List FileInfo) (inc exc : List (List Char)),
      files ≠ [] → applyFilters files inc exc = [] →
      download_repo_plan true files inc exc = RepoOutcome.noTasks ∧
      planEarlyResult (download_repo_plan true files inc exc) = some true ∧
      planTasks (download_repo_plan true files inc exc) = []) ∧
    (∀ inc exc, download_repo_plan true [] inc exc = RepoOutcome.emptyList ∧
      planEarlyResult (download_repo_plan true [] inc exc) = some false) ∧
    (∀ files inc exc,
      download_repo_plan false files inc exc = RepoOutcome.invalidRepo ∧
      planEarlyResult (download_repo_plan false files inc exc) = some false) := by
  refine ⟨?_, ?_, ?_⟩
  · intro files inc exc hne hf
    cases files with
    | nil => exact absurd rfl hne
    | cons a l =>
      have h : download_repo_plan true (a :: l) inc exc = RepoOutcome.noTasks := by
        simp [download_repo_plan, hf]
      refine ⟨h, ?_, ?_⟩
      · rw [h]; rfl
      · rw [h]; rfl
  · intro inc exc
    exact ⟨rfl, rfl⟩
  · intro files inc exc
    exact ⟨rfl, rfl⟩

/-- C10 witness: a one-entry manifest whose single filename "m" is
removed by the exclude pattern "m" yields the no-tasks early success. -/
theorem c10_filtered_out_witness :
    download_repo_plan true [lfsManifestFile] [] [['m']] = RepoOutcome.noTasks ∧
    planEarlyResult (download_repo_plan true [lfsManifestFile] [] [['m']]) =
      some true ∧
    planTasks (download_repo_plan true [lfsManifestFile] [] [['m']]) = [] :=
  c10_filtered_out.1 [lfsManifestFile] [] [['m']] (by decide) (by decide)

end Hfxget
